import Mathlib

/-!
The probe classifier, the host extractor and the coordinator of ping_set.

A shallow embedding of `cmd/root.go`.

* Go `error` values are modelled by `GoError`, a tree of wrapped errors that
  records what the classifier can observe of a value: its dynamic type, the
  string its `Error()` method returns, the result of its `Timeout()` method
  and what `Unwrap()` returns.
* The compiled regular expression `r` is a list of single-character pattern
  elements, matched by a backtracking matcher with the leftmost-first
  preference order of Go's `regexp` package.
* A panic (index out of range, nil dereference) is the result `none`.
* The goroutines of `RunApp` are a step relation on `State`.
-/

namespace PingSet

/-! ## Go error values -/

/-- A Go `error` value. `text` is the string the value's `Error()` method
returns. The first six constructors are the dynamic types `classifyHTTPError`
looks for; `other` is any other error type (`*fmt.wrapError`,
`*os.SyscallError`, `*tls.CertificateVerificationError`, a joined error, a
user-defined type): `timeout` is `none` when the type has no `Timeout()`
method and `some b` when it has one that returns `b`, `temporary` says whether
it has a `Temporary()` method, and `wraps` is what `Unwrap()` returns (empty
when there is no such method). Values are non-nil, and no type of the model
defines an `As` method of its own. -/
inductive GoError where
  /-- Type `*net.DNSError`; `UnwrapErr` is empty for a nil `UnwrapErr` field. -/
  | DNSError (text : String) (IsTimeout : Bool) (UnwrapErr : List GoError)
  /-- Type `x509.UnknownAuthorityError`. -/
  | UnknownAuthorityError (text : String)
  /-- Type `x509.HostnameError`. -/
  | HostnameError (text : String)
  /-- Type `x509.CertificateInvalidError`. -/
  | CertificateInvalidError (text : String)
  /-- Type `*net.OpError` with its field `Err`. -/
  | OpError (text : String) (Err : GoError)
  /-- Type `*url.Error` with its fields `Op`, `URL` and `Err`. -/
  | URLError (text : String) (Op URL : String) (Err : GoError)
  /-- Any other error type. -/
  | other (text : String) (timeout : Option Bool) (temporary : Bool) (wraps : List GoError)

namespace GoError

/-- The method `Error()`. -/
def Error : GoError → String
  | DNSError text _ _ => text
  | UnknownAuthorityError text => text
  | HostnameError text => text
  | CertificateInvalidError text => text
  | OpError text _ => text
  | URLError text _ _ _ => text
  | other text _ _ _ => text

/-- The method `Timeout()`: `none` when the dynamic type has no such method.
`(*net.DNSError).Timeout` returns the field `IsTimeout`; `(*net.OpError).Timeout`
and `(*url.Error).Timeout` return `ok && t.Timeout()` for the type assertion
`t, ok := e.Err.(interface{ Timeout() bool })`; an `*os.SyscallError`, which
`(*net.OpError).Timeout` looks through, is an `other` whose `timeout` is what
its own `Timeout` method returns, the same value. -/
def Timeout : GoError → Option Bool
  | DNSError _ IsTimeout _ => some IsTimeout
  | UnknownAuthorityError _ => none
  | HostnameError _ => none
  | CertificateInvalidError _ => none
  | OpError _ Err => some (Err.Timeout == some true)
  | URLError _ _ _ Err => some (Err.Timeout == some true)
  | other _ timeout _ _ => timeout

/-- Whether the dynamic type implements the interface `net.Error`
(`Error`, `Timeout` and `Temporary`). -/
def isNetError : GoError → Bool
  | DNSError _ _ _ => true
  | UnknownAuthorityError _ => false
  | HostnameError _ => false
  | CertificateInvalidError _ => false
  | OpError _ _ => true
  | URLError _ _ _ _ => true
  | other _ timeout temporary _ => timeout.isSome && temporary

/-- Dynamic type `*net.DNSError`. -/
def isDNSError : GoError → Bool
  | DNSError _ _ _ => true
  | _ => false

/-- Dynamic type `x509.UnknownAuthorityError`. -/
def isUnknownAuthorityError : GoError → Bool
  | UnknownAuthorityError _ => true
  | _ => false

/-- Dynamic type `x509.HostnameError`. -/
def isHostnameError : GoError → Bool
  | HostnameError _ => true
  | _ => false

/-- Dynamic type `x509.CertificateInvalidError`. -/
def isCertificateInvalidError : GoError → Bool
  | CertificateInvalidError _ => true
  | _ => false

/-- Dynamic type `*net.OpError`. -/
def isOpError : GoError → Bool
  | OpError _ _ => true
  | _ => false

/-- Dynamic type `*url.Error`. -/
def isURLError : GoError → Bool
  | URLError _ _ _ _ => true
  | _ => false

end GoError

mutual
/-- The function `errors.As(err, &target)` for a non-nil `err`, where `p` says
whether a value is assignable to the type of `target`: the first value of the
wrap tree, in pre-order, that is assignable, or `none` when `As` returns
false. -/
def errorsAs (p : GoError → Bool) : GoError → Option GoError
  | .DNSError text t ws =>
    if p (.DNSError text t ws) then some (.DNSError text t ws) else errorsAsList p ws
  | .UnknownAuthorityError text =>
    if p (.UnknownAuthorityError text) then some (.UnknownAuthorityError text) else none
  | .HostnameError text =>
    if p (.HostnameError text) then some (.HostnameError text) else none
  | .CertificateInvalidError text =>
    if p (.CertificateInvalidError text) then some (.CertificateInvalidError text) else none
  | .OpError text inner =>
    if p (.OpError text inner) then some (.OpError text inner) else errorsAs p inner
  | .URLError text op url inner =>
    if p (.URLError text op url inner) then some (.URLError text op url inner)
    else errorsAs p inner
  | .other text t tmp ws =>
    if p (.other text t tmp ws) then some (.other text t tmp ws) else errorsAsList p ws
/-- The loop of `errors.As` over the result of `Unwrap() []error`. -/
def errorsAsList (p : GoError → Bool) : List GoError → Option GoError
  | [] => none
  | e :: es =>
    match errorsAs p e with
    | some x => some x
    | none => errorsAsList p es
end

mutual
/-- The wrap chain of an error: every value of its wrap tree, itself first,
in the order `errors.As` visits them. -/
def chain : GoError → List GoError
  | .DNSError text t ws => .DNSError text t ws :: chainList ws
  | .UnknownAuthorityError text => [.UnknownAuthorityError text]
  | .HostnameError text => [.HostnameError text]
  | .CertificateInvalidError text => [.CertificateInvalidError text]
  | .OpError text inner => .OpError text inner :: chain inner
  | .URLError text op url inner => .URLError text op url inner :: chain inner
  | .other text t tmp ws => .other text t tmp ws :: chainList ws
/-- The wrap chains of a list of errors, one after the other. -/
def chainList : List GoError → List GoError
  | [] => []
  | e :: es => chain e ++ chainList es
end

/-! ## The classifier -/

/-- The part of `*http.Response` the program reads. -/
structure Response where
  StatusCode : Int
  deriving DecidableEq, Repr

/-- The function `strconv.Itoa`. -/
def Itoa (i : Int) : String :=
  if i < 0 then "-" ++ Nat.repr i.natAbs else Nat.repr i.natAbs

/-- The function `classifyHTTPStatusCode`. -/
def classifyHTTPStatusCode (resp : Response) : String × String :=
  if resp.StatusCode = 200 then (Itoa resp.StatusCode, "OK")
  else if resp.StatusCode = 301 then (Itoa resp.StatusCode, "Moved permanently")
  else if resp.StatusCode = 403 then (Itoa resp.StatusCode, "Forbidden")
  else if resp.StatusCode = 404 then (Itoa resp.StatusCode, "Not Found")
  else if resp.StatusCode = 429 then (Itoa resp.StatusCode, "Too many requests")
  else if resp.StatusCode = 500 then (Itoa resp.StatusCode, "Internal server error")
  else if resp.StatusCode = 502 then (Itoa resp.StatusCode, "Bad gateway")
  else ("unknown code", "unknown")

/-- The condition `errors.As(err, &netErr) && netErr.Timeout()`. -/
def timedOut (err : GoError) : Bool :=
  match errorsAs GoError.isNetError err with
  | some netErr => netErr.Timeout == some true
  | none => false

/-- The function `classifyHTTPError`; `none` is the nil error. -/
def classifyHTTPError : Option GoError → String × String
  | none => ("", "")
  | some err =>
    if timedOut err then ("timeout", "network timeout (dial/tls/headers/total)")
    else
    match errorsAs GoError.isDNSError err with
    | some dnsErr => ("dns_error", dnsErr.Error)
    | none =>
    match errorsAs GoError.isUnknownAuthorityError err with
    | some _ => ("tls_cert", "x509: unknown authority")
    | none =>
    match errorsAs GoError.isHostnameError err with
    | some _ => ("tls_cert", "x509: hostname mismatch")
    | none =>
    match errorsAs GoError.isCertificateInvalidError err with
    | some _ => ("tls_cert", "x509: invalid certificate")
    | none =>
    match errorsAs GoError.isOpError err with
    | some (.OpError _ inner) => ("net_op_error", inner.Error)
    | _ =>
    match errorsAs GoError.isURLError err with
    | some (.URLError _ Op URL inner) => ("url_error", Op ++ " " ++ URL ++ ": " ++ inner.Error)
    | _ => ("unknown", err.Error)

/-- The function `classifyHTTP`; `none` is the nil response, the nil error. -/
def classifyHTTP (resp : Option Response) (err : Option GoError) : String × String :=
  match resp with
  | some resp => classifyHTTPStatusCode resp
  | none => classifyHTTPError err

/-- The closed taxonomy of kinds, section 7 of the specification. -/
def taxonomy : List String :=
  ["200", "301", "403", "404", "429", "500", "502", "unknown code", "timeout",
   "dns_error", "tls_cert", "net_op_error", "url_error", "unknown"]

/-! ## The host extractor -/

/-- The class `[[:alpha:]]`: the ASCII letters. -/
def isAlpha (c : Char) : Bool :=
  ('a'.toNat ≤ c.toNat && c.toNat ≤ 'z'.toNat) || ('A'.toNat ≤ c.toNat && c.toNat ≤ 'Z'.toNat)

/-- The class `[[:alpha:].]`. -/
def isAlphaDot (c : Char) : Bool :=
  isAlpha c || c == '.'

/-- The class `[[:graph:]]`: the printable ASCII characters other than the
space, `!` to `~`. -/
def isGraph (c : Char) : Bool :=
  '!'.toNat ≤ c.toNat && c.toNat ≤ '~'.toNat

/-- How often a pattern element repeats. -/
inductive Rep where
  /-- Exactly once. -/
  | one
  /-- The greedy `?`. -/
  | opt
  /-- The greedy `+`. -/
  | plus
  deriving DecidableEq, Repr

/-- One element of a pattern: a character class, its repetition and the
capture group it stands in. -/
structure Elem where
  group : Nat
  cls : Char → Bool
  rep : Rep

/-- A literal character of capture group `g`. -/
def lit (g : Nat) (c : Char) : Elem :=
  ⟨g, fun x => x == c, .one⟩

/-- The pattern `(https?://)([[:alpha:].]+)([[:graph:]]+)`. -/
def r : List Elem :=
  [lit 1 'h', lit 1 't', lit 1 't', lit 1 'p', ⟨1, fun x => x == 's', .opt⟩,
   lit 1 ':', lit 1 '/', lit 1 '/',
   ⟨2, isAlphaDot, .plus⟩,
   ⟨3, isGraph, .plus⟩]

/-- The first length among `n, n - 1, ..., 1` that `f` accepts: the order in
which a greedy `+` gives characters back. -/
def tryLens {α : Type} (f : Nat → Option α) : Nat → Option α
  | 0 => none
  | k + 1 =>
    match f (k + 1) with
    | some a => some a
    | none => tryLens f k

/-- Match a pattern at the start of `s`, in the preference order of a
backtracking matcher (Go's leftmost-first semantics): the text each element
consumed, with its capture group. -/
def matchHere : List Elem → List Char → Option (List (Nat × List Char))
  | [], _ => some []
  | e :: es, s =>
    match e.rep with
    | .one =>
      match s with
      | c :: s' =>
        if e.cls c then (matchHere es s').map (fun m => (e.group, [c]) :: m) else none
      | [] => none
    | .opt =>
      match (match s with
             | c :: s' =>
               if e.cls c then (matchHere es s').map (fun m => (e.group, [c]) :: m) else none
             | [] => none) with
      | some m => some m
      | none => (matchHere es s).map (fun m => (e.group, []) :: m)
    | .plus =>
      tryLens (fun k => (matchHere es (s.drop k)).map (fun m => (e.group, s.take k) :: m))
        (s.takeWhile e.cls).length

/-- The leftmost match of a pattern in `s`. -/
def findSubmatch (re : List Elem) : List Char → Option (List (Nat × List Char))
  | [] => matchHere re []
  | c :: s =>
    match matchHere re (c :: s) with
    | some m => some m
    | none => findSubmatch re s

/-- The text of capture group `g` in a match; group 0 is the whole match. -/
def groupText (g : Nat) (m : List (Nat × List Char)) : String :=
  String.mk ((m.filter (fun x => g == 0 || x.1 == g)).flatMap (fun x => x.2))

/-- The method `FindStringSubmatch` of a pattern with three capture groups:
`none` is the nil slice of a failed match. -/
def FindStringSubmatch (re : List Elem) (s : String) : Option (List String) :=
  (findSubmatch re s.data).map (fun m => [groupText 0 m, groupText 1 m, groupText 2 m, groupText 3 m])

/-- The function `parseDomen`; `none` is the index-out-of-range panic of
`pieces[2]`. -/
def parseDomen (url : String) : Option String :=
  match FindStringSubmatch r url with
  | none => none
  | some pieces => pieces[2]?

/-! ## The fetcher and the worker -/

/-- The network as `fetch` sees it: whether `http.NewRequest` accepts a URL
(it returns a nil request otherwise), and the result of `client.Do` for a URL
and a `User-Agent` header. -/
structure Transport where
  NewRequest : String → Bool
  Do : String → String → Except GoError Response

/-- The `User-Agent` header sent when none is configured. -/
def defaultAgent : String :=
  "Mozilla/5.0 (X11; Linux x86_64; rv:128.0) Gecko/20100101 Firefox/128.0"

/-- The function `fetch`; `none` is the nil dereference of `req.Header` after
a `NewRequest` that failed. -/
def fetch (T : Transport) (url customAgent : String) :
    Option (Option Response × Option GoError) :=
  if T.NewRequest url then
    match T.Do url (if customAgent != "" then customAgent else defaultAgent) with
    | .error err => some (none, some err)
    | .ok resp => some (some resp, none)
  else none

/-- A row of the result table. -/
structure Row where
  Domen : String
  Kind : String
  Detail : String
  deriving DecidableEq, Repr

/-- The body of the goroutine of `RunApp` up to the value it sends; `none`
is a panic. -/
def worker (T : Transport) (userAgent url : String) : Option Row :=
  match (if userAgent != "" then fetch T url userAgent else fetch T url "") with
  | none => none
  | some (resp, err) =>
    match classifyHTTP resp err, parseDomen url with
    | (kind, detail), some domen => some ⟨domen, kind, detail⟩
    | _, none => none

/-! ## The input loader -/

/-- The bit `os.ModeCharDevice` of a file mode. -/
def ModeCharDevice : Nat := 2 ^ 21

/-- What a function that may call `os.Exit` does: it exits with a code after
logging lines to standard error, or it returns. -/
inductive Outcome (α : Type) where
  | exit (code : Nat) (log : List String)
  | ret (a : α)
  deriving DecidableEq, Repr

/-- The exit code of an outcome, when it is an exit. -/
def Outcome.code {α : Type} : Outcome α → Option Nat
  | .exit code _ => some code
  | .ret _ => none

/-- The function `urlFromStdin`: `stat` is the result of `os.Stdin.Stat()`
(the file mode, or the text of the error) and `lines` are the lines the
scanner reads from standard input. -/
def urlFromStdin (stat : Except String Nat) (lines : List String) : Outcome (List String) :=
  match stat with
  | .error err => .exit 1 ["Error reading stdin " ++ err ++ ": "]
  | .ok mode =>
    if mode &&& ModeCharDevice != 0 then .exit 0 ["Stdin stream is empty."]
    else .ret lines

/-- The function `urlFromFile`: `osOpen` gives the lines of a file that can be
opened; a file that cannot be opened is logged and read as no line. -/
def urlFromFile (osOpen : String → Option (List String)) (filePath : String) : List String :=
  match osOpen filePath with
  | some lines => lines
  | none => []

/-- The choice of the input in `RunApp`: the file of the flag `file` when it
is set, standard input otherwise. -/
def loadURLs (osOpen : String → Option (List String)) (filePath : String)
    (stat : Except String Nat) (lines : List String) : Outcome (List String) :=
  if filePath != "" then .ret (urlFromFile osOpen filePath) else urlFromStdin stat lines

/-! ## The coordinator -/

/-- The initial value of the package variable `data`. -/
def data : List (List String) :=
  [["Site", "Status code", "Description"]]

/-- The capacity of the channel `results`. -/
def resultsCap : Nat := 64

/-- Where the goroutine started for `url` stands. -/
inductive Goroutine where
  /-- Started, before the send. -/
  | running (url : String)
  /-- At the send `results <- row`. -/
  | sending (url : String) (row : Row)
  /-- After the send; the deferred `wg.Done` ran. -/
  | done (url : String)
  /-- Panicked before the send; the deferred `wg.Done` ran. -/
  | panicked (url : String)
  deriving DecidableEq, Repr

/-- The URL the goroutine was started for. -/
def Goroutine.url : Goroutine → String
  | .running url => url
  | .sending url _ => url
  | .done url => url
  | .panicked url => url

/-- Whether the goroutine has sent its row. -/
def Goroutine.isDone : Goroutine → Bool
  | .done _ => true
  | _ => false

/-- Whether the goroutine has called `wg.Done`. -/
def Goroutine.finished : Goroutine → Bool
  | .done _ => true
  | .panicked _ => true
  | _ => false

/-- The state of `RunApp` after the loop that starts the goroutines. -/
structure State where
  /-- The goroutines, one per URL, in input order. -/
  workers : List Goroutine
  /-- The rows buffered in the channel `results`. -/
  results : List Row
  /-- The package variable `data`. -/
  data : List (List String)
  /-- The rows handed to the table writer, header first, once rendered. -/
  rendered : Option (List (List String))
  /-- Whether the runtime ended the process after a panic. -/
  exited : Bool

/-- The state in which every goroutine has been started. -/
def State.init (urls : List String) : State :=
  ⟨urls.map Goroutine.running, [], PingSet.data, none, false⟩

/-- One step of `RunApp` under an arbitrary scheduler. -/
inductive Step (T : Transport) (userAgent : String) : State → State → Prop where
  /-- A goroutine fetches, classifies and extracts the host. -/
  | compute (s : State) (pre post : List Goroutine) (url : String) (row : Row) :
      s.exited = false → s.workers = pre ++ .running url :: post →
      worker T userAgent url = some row →
      Step T userAgent s { s with workers := pre ++ .sending url row :: post }
  /-- A goroutine panics; its deferred `wg.Done` runs. -/
  | panic (s : State) (pre post : List Goroutine) (url : String) :
      s.exited = false → s.workers = pre ++ .running url :: post →
      worker T userAgent url = none →
      Step T userAgent s { s with workers := pre ++ .panicked url :: post }
  /-- A goroutine sends its row; the send blocks while the buffer is full. -/
  | send (s : State) (pre post : List Goroutine) (url : String) (row : Row) :
      s.exited = false → s.workers = pre ++ .sending url row :: post →
      s.results.length < resultsCap →
      Step T userAgent s
        { s with workers := pre ++ .done url :: post, results := s.results ++ [row] }
  /-- The runtime ends the process after an unrecovered panic. -/
  | crash (s : State) (url : String) :
      s.exited = false → Goroutine.panicked url ∈ s.workers →
      Step T userAgent s { s with exited := true }
  /-- The main goroutine: `wg.Wait` returns, the channel is closed and drained
  into `data`, and the table is rendered. -/
  | render (s : State) :
      s.exited = false → s.rendered = none →
      (∀ w ∈ s.workers, w.finished = true) →
      Step T userAgent s
        { s with
          results := [],
          data := s.data ++ s.results.map (fun x => [x.Domen, x.Kind, x.Detail]),
          rendered := some (s.data ++ s.results.map (fun x => [x.Domen, x.Kind, x.Detail])) }

/-- The states `RunApp` can reach from a state. -/
inductive Reachable (T : Transport) (userAgent : String) (s : State) : State → Prop where
  | refl : Reachable T userAgent s s
  | step (t u : State) : Reachable T userAgent s t → Step T userAgent t u →
      Reachable T userAgent s u

/-- What the state of a goroutine says about the worker of its URL. -/
def Goroutine.Consistent (T : Transport) (userAgent : String) : Goroutine → Prop
  | .running _ => True
  | .sending url row => worker T userAgent url = some row
  | .done url => (worker T userAgent url).isSome = true
  | .panicked url => worker T userAgent url = none

/-- The invariant of the coordinator for the input `urls`. -/
structure Inv (T : Transport) (userAgent : String) (urls : List String) (s : State) : Prop where
  /-- One goroutine per input URL, in input order. -/
  urls_eq : s.workers.map Goroutine.url = urls
  /-- Every goroutine agrees with the worker of its URL. -/
  good : ∀ w ∈ s.workers, w.Consistent T userAgent
  /-- Before the table is rendered, the channel holds one row per goroutine
  that has sent, and never more than its capacity. -/
  pending : s.rendered = none →
    s.data = PingSet.data ∧ s.results.length = (s.workers.filter Goroutine.isDone).length ∧
      s.results.length ≤ resultsCap
  /-- A rendered table holds the header and one row per goroutine that has
  sent, and every goroutine has finished. -/
  shown : ∀ t, s.rendered = some t →
    t.length = 1 + (s.workers.filter Goroutine.isDone).length ∧
      (s.workers.filter Goroutine.isDone).length ≤ resultsCap ∧
      ∀ w ∈ s.workers, w.finished = true

/-! ## Example inputs -/

/-- The error of a request whose name lookup timed out: a URL error over a
net-op error over a DNS error that reports a timeout. -/
def lookupTimeoutError : GoError :=
  .URLError "Get \"http://slow.example\": dial tcp: lookup slow.example: i/o timeout"
    "Get" "http://slow.example"
    (.OpError "dial tcp: lookup slow.example: i/o timeout"
      (.DNSError "lookup slow.example: i/o timeout" true []))

/-- The error of a transport that wraps a DNS timeout in an error type
without a `Timeout` method, as `fmt.Errorf` with `%w` does, under the URL
error of the client. -/
def wrappedLookupTimeoutError : GoError :=
  .URLError "Get \"http://slow.example\": round trip: lookup slow.example: i/o timeout"
    "Get" "http://slow.example"
    (.other "round trip: lookup slow.example: i/o timeout" none false
      [.DNSError "lookup slow.example: i/o timeout" true []])

/-- The error of a request to a name that does not resolve. -/
def noSuchHostError : GoError :=
  .URLError "Get \"https://missing.example\": dial tcp: lookup missing.example: no such host"
    "Get" "https://missing.example"
    (.OpError "dial tcp: lookup missing.example: no such host"
      (.DNSError "lookup missing.example: no such host" false []))

/-- The error of a request to a server whose certificate is signed by an
unknown authority. -/
def unknownAuthorityError : GoError :=
  .URLError
    "Get \"https://expired.example\": tls: failed to verify certificate: x509: certificate signed by unknown authority"
    "Get" "https://expired.example"
    (.other "tls: failed to verify certificate: x509: certificate signed by unknown authority"
      none false [.UnknownAuthorityError "x509: certificate signed by unknown authority"])

/-- A transport that answers every request with the status code `c`. -/
def statusTransport (c : Int) : Transport :=
  ⟨fun _ => true, fun _ _ => .ok ⟨c⟩⟩

/-- The file mode of a terminal: a character device with permissions `0620`. -/
def ttyMode : Nat := 2 ^ 26 + 2 ^ 21 + 0o620

/-- The state of a run on one blank line after the goroutine panicked and the
main goroutine rendered the table before the runtime ended the process. -/
def blankLineRun : State :=
  ⟨[.panicked ""], [], PingSet.data, some PingSet.data, false⟩

/-! ## The decision list of the specification -/

/-- The decision list of section 4.3 of the specification for an error, in
its words: the first category, in the order given, that the wrap chain
contains decides. -/
def decisionList (err : GoError) : String × String :=
  match (chain err).find? GoError.isDNSError with
  | some dnsErr => ("dns_error", dnsErr.Error)
  | none =>
  if (chain err).any GoError.isUnknownAuthorityError then ("tls_cert", "x509: unknown authority")
  else if (chain err).any GoError.isHostnameError then ("tls_cert", "x509: hostname mismatch")
  else if (chain err).any GoError.isCertificateInvalidError then
    ("tls_cert", "x509: invalid certificate")
  else
  match (chain err).find? GoError.isOpError with
  | some (.OpError _ inner) => ("net_op_error", inner.Error)
  | _ =>
  match (chain err).find? GoError.isURLError with
  | some (.URLError _ Op URL inner) => ("url_error", Op ++ " " ++ URL ++ ": " ++ inner.Error)
  | _ => ("unknown", err.Error)

end PingSet

namespace PingSet

/-! ## `errors.As` and the wrap chain -/

mutual
/-- The result of `errors.As` is the first assignable value of the wrap chain. -/
theorem errorsAs_eq_find (p : GoError → Bool) :
    ∀ e : GoError, errorsAs p e = (chain e).find? p
  | .DNSError text t ws => by
    cases h : p (.DNSError text t ws) <;>
      simp [errorsAs, chain, List.find?_cons, h, errorsAsList_eq_find p ws]
  | .UnknownAuthorityError text => by
    cases h : p (.UnknownAuthorityError text) <;> simp [errorsAs, chain, List.find?_cons, h]
  | .HostnameError text => by
    cases h : p (.HostnameError text) <;> simp [errorsAs, chain, List.find?_cons, h]
  | .CertificateInvalidError text => by
    cases h : p (.CertificateInvalidError text) <;> simp [errorsAs, chain, List.find?_cons, h]
  | .OpError text inner => by
    cases h : p (.OpError text inner) <;>
      simp [errorsAs, chain, List.find?_cons, h, errorsAs_eq_find p inner]
  | .URLError text op url inner => by
    cases h : p (.URLError text op url inner) <;>
      simp [errorsAs, chain, List.find?_cons, h, errorsAs_eq_find p inner]
  | .other text t tmp ws => by
    cases h : p (.other text t tmp ws) <;>
      simp [errorsAs, chain, List.find?_cons, h, errorsAsList_eq_find p ws]
/-- The loop over several wrapped errors finds the first assignable value of
their chains. -/
theorem errorsAsList_eq_find (p : GoError → Bool) :
    ∀ es : List GoError, errorsAsList p es = (chainList es).find? p
  | [] => by simp [errorsAsList, chainList]
  | e :: es => by
    rw [errorsAsList, chainList, List.find?_append, errorsAs_eq_find p e,
      errorsAsList_eq_find p es]
    cases (chain e).find? p <;> simp
end

/-- The timeout test looks at the first network error of the chain only. -/
theorem timedOut_eq (e : GoError) :
    timedOut e = match (chain e).find? GoError.isNetError with
      | some netErr => netErr.Timeout == some true
      | none => false := by
  rw [timedOut, errorsAs_eq_find]

/-- Without a network error that reports a timeout in the chain, the timeout
test fails. -/
theorem timedOut_false_of_chain (e : GoError)
    (h : ∀ n ∈ chain e, ¬ (n.isNetError = true ∧ n.Timeout = some true)) :
    timedOut e = false := by
  rw [timedOut_eq]
  cases hf : (chain e).find? GoError.isNetError with
  | none => rfl
  | some n =>
    have hmem := List.mem_of_find?_eq_some hf
    have hp := List.find?_some hf
    have := h n hmem
    simp only [hp, true_and] at this
    simp [this]

/-! ## The classifier -/

/-- The status table of `classifyHTTPStatusCode`, with the decimal strings
written out. -/
theorem classifyHTTPStatusCode_eq (c : Int) :
    classifyHTTPStatusCode ⟨c⟩ =
      if c = 200 then ("200", "OK")
      else if c = 301 then ("301", "Moved permanently")
      else if c = 403 then ("403", "Forbidden")
      else if c = 404 then ("404", "Not Found")
      else if c = 429 then ("429", "Too many requests")
      else if c = 500 then ("500", "Internal server error")
      else if c = 502 then ("502", "Bad gateway")
      else ("unknown code", "unknown") := by
  unfold classifyHTTPStatusCode
  split_ifs with h1 h2 h3 h4 h5 h6 h7
  · subst h1; decide
  · subst h2; decide
  · subst h3; decide
  · subst h4; decide
  · subst h5; decide
  · subst h6; decide
  · subst h7; decide
  · rfl

/-- C1: a present response is classified by its status code alone, the seven
recognized codes give their decimal string and their detail, and every other
integer gives `("unknown code", "unknown")`. -/
theorem classifyHTTPStatusCode_table (c : Int) (err : Option GoError) :
    classifyHTTP (some ⟨c⟩) err = classifyHTTPStatusCode ⟨c⟩ ∧
    (classifyHTTPStatusCode ⟨c⟩ =
      if c = 200 then ("200", "OK")
      else if c = 301 then ("301", "Moved permanently")
      else if c = 403 then ("403", "Forbidden")
      else if c = 404 then ("404", "Not Found")
      else if c = 429 then ("429", "Too many requests")
      else if c = 500 then ("500", "Internal server error")
      else if c = 502 then ("502", "Bad gateway")
      else ("unknown code", "unknown")) ∧
    ((c = 200 ∨ c = 301 ∨ c = 403 ∨ c = 404 ∨ c = 429 ∨ c = 500 ∨ c = 502) →
      (classifyHTTPStatusCode ⟨c⟩).1 = Itoa c) := by
  refine ⟨rfl, classifyHTTPStatusCode_eq c, ?_⟩
  intro h
  unfold classifyHTTPStatusCode
  rcases h with h | h | h | h | h | h | h <;> subst h <;> rfl

/-- C1, at the status codes 404 and 418. -/
theorem classifyHTTPStatusCode_table_witness :
    classifyHTTPStatusCode ⟨404⟩ = ("404", "Not Found") ∧
    (classifyHTTPStatusCode ⟨404⟩).1 = Itoa 404 ∧
    classifyHTTPStatusCode ⟨418⟩ = ("unknown code", "unknown") :=
  ⟨(classifyHTTPStatusCode_table 404 none).2.1,
   (classifyHTTPStatusCode_table 404 none).2.2 (by decide),
   (classifyHTTPStatusCode_table 418 none).2.1⟩

/-- The kind of a classified status code belongs to the taxonomy. -/
theorem classifyHTTPStatusCode_kind_mem (resp : Response) :
    (classifyHTTPStatusCode resp).1 ∈ taxonomy := by
  obtain ⟨c⟩ := resp
  rw [classifyHTTPStatusCode_eq]
  split_ifs <;> simp [taxonomy]

/-- The kind of a classified error belongs to the taxonomy. -/
theorem classifyHTTPError_kind_mem (err : GoError) :
    (classifyHTTPError (some err)).1 ∈ taxonomy := by
  simp only [classifyHTTPError]
  split_ifs
  · simp [taxonomy]
  · repeat' split
    all_goals simp [taxonomy]

/-- C2: whenever a response or an error is present, the kind `classifyHTTP`
returns is one of the fourteen kinds of the closed taxonomy. -/
theorem classifyHTTP_kind_mem_taxonomy (resp : Option Response) (err : Option GoError)
    (h : resp.isSome = true ∨ err.isSome = true) :
    (classifyHTTP resp err).1 ∈ taxonomy := by
  cases resp with
  | some x => exact classifyHTTPStatusCode_kind_mem x
  | none =>
    cases err with
    | some e => exact classifyHTTPError_kind_mem e
    | none => simp at h

/-- C2, at a DNS failure without a response. -/
theorem classifyHTTP_kind_mem_taxonomy_witness :
    (classifyHTTP none (some (.DNSError "lookup missing.example: no such host" false []))).1
      ∈ taxonomy :=
  classifyHTTP_kind_mem_taxonomy none
    (some (.DNSError "lookup missing.example: no such host" false [])) (Or.inr rfl)

/-- The classifier after a failed timeout test, with `errors.As` read as a
search of the wrap chain. -/
theorem classifyHTTPError_of_not_timedOut (e : GoError) (h : timedOut e = false) :
    classifyHTTPError (some e) =
      match (chain e).find? GoError.isDNSError with
      | some dnsErr => ("dns_error", dnsErr.Error)
      | none =>
      match (chain e).find? GoError.isUnknownAuthorityError with
      | some _ => ("tls_cert", "x509: unknown authority")
      | none =>
      match (chain e).find? GoError.isHostnameError with
      | some _ => ("tls_cert", "x509: hostname mismatch")
      | none =>
      match (chain e).find? GoError.isCertificateInvalidError with
      | some _ => ("tls_cert", "x509: invalid certificate")
      | none =>
      match (chain e).find? GoError.isOpError with
      | some (.OpError _ inner) => ("net_op_error", inner.Error)
      | _ =>
      match (chain e).find? GoError.isURLError with
      | some (.URLError _ Op URL inner) =>
        ("url_error", Op ++ " " ++ URL ++ ": " ++ inner.Error)
      | _ => ("unknown", e.Error) := by
  simp only [classifyHTTPError, h, errorsAs_eq_find, Bool.false_eq_true, if_false]

/-- A search that finds nothing, as a test of the whole list. -/
theorem find?_eq_none_of_any_false {α : Type} (p : α → Bool) (l : List α)
    (h : l.any p = false) : l.find? p = none := by
  rw [List.find?_eq_none]
  intro x hx hp
  have : l.any p = true := List.any_eq_true.mpr ⟨x, hx, hp⟩
  rw [h] at this
  exact Bool.false_ne_true this

/-- A search that finds a value, as a test of the whole list. -/
theorem find?_isSome_of_any {α : Type} (p : α → Bool) (l : List α)
    (h : l.any p = true) : ∃ x, l.find? p = some x := by
  cases hf : l.find? p with
  | some x => exact ⟨x, rfl⟩
  | none =>
    rw [List.find?_eq_none] at hf
    obtain ⟨x, hx, hp⟩ := List.any_eq_true.mp h
    exact absurd hp (hf x hx)

/-- C8: for an error whose wrap chain holds no network error that reports a
timeout, `classifyHTTPError` is the first-match-wins decision list of the
specification: DNS error, unknown authority, hostname mismatch, invalid
certificate, net-op error, URL error, and otherwise `"unknown"` with the
error's own string. -/
theorem classifyHTTPError_eq_decisionList (e : GoError)
    (h : ∀ n ∈ chain e, ¬ (n.isNetError = true ∧ n.Timeout = some true)) :
    classifyHTTPError (some e) = decisionList e := by
  rw [classifyHTTPError_of_not_timedOut e (timedOut_false_of_chain e h), decisionList]
  cases (chain e).find? GoError.isDNSError with
  | some d => rfl
  | none =>
    simp only []
    cases h1 : (chain e).any GoError.isUnknownAuthorityError with
    | true =>
      obtain ⟨x, hx⟩ := find?_isSome_of_any _ _ h1
      simp [hx]
    | false =>
      rw [find?_eq_none_of_any_false _ _ h1]
      cases h2 : (chain e).any GoError.isHostnameError with
      | true =>
        obtain ⟨x, hx⟩ := find?_isSome_of_any _ _ h2
        simp [hx]
      | false =>
        rw [find?_eq_none_of_any_false _ _ h2]
        cases h3 : (chain e).any GoError.isCertificateInvalidError with
        | true =>
          obtain ⟨x, hx⟩ := find?_isSome_of_any _ _ h3
          simp [hx]
        | false =>
          rw [find?_eq_none_of_any_false _ _ h3]
          simp

/-- C8, at an unknown-authority certificate error under the URL error of the
client: no error of the chain reports a timeout, and the row detail is
`"x509: unknown authority"`. -/
theorem classifyHTTPError_eq_decisionList_witness :
    (∀ n ∈ chain unknownAuthorityError, ¬ (n.isNetError = true ∧ n.Timeout = some true)) ∧
    classifyHTTPError (some unknownAuthorityError) = decisionList unknownAuthorityError ∧
    decisionList unknownAuthorityError = ("tls_cert", "x509: unknown authority") :=
  ⟨by decide, classifyHTTPError_eq_decisionList unknownAuthorityError (by decide), by decide⟩

/-- C7 as stated fails: a URL error that wraps, through a wrapper without a
`Timeout` method, a DNS error reporting a timeout has a timeout-reporting
network error in its chain and is classified `"dns_error"`. -/
theorem classifyHTTPError_deep_timeout_not_timeout :
    (∃ n ∈ chain wrappedLookupTimeoutError, n.isNetError = true ∧ n.Timeout = some true) ∧
    classifyHTTPError (some wrappedLookupTimeoutError)
      = ("dns_error", "lookup slow.example: i/o timeout") ∧
    classifyHTTPError (some wrappedLookupTimeoutError)
      ≠ ("timeout", "network timeout (dial/tls/headers/total)") := by
  refine ⟨⟨.DNSError "lookup slow.example: i/o timeout" true [], ?_, rfl, rfl⟩,
    by decide, by decide⟩
  simp [wrappedLookupTimeoutError, chain, chainList]

/-- C7, amended: when the first network error of the wrap chain, in the order
`errors.As` visits it, reports a timeout, the classification is `"timeout"`,
whatever else the chain holds. -/
theorem classifyHTTPError_timeout (e n : GoError)
    (hn : (chain e).find? GoError.isNetError = some n) (ht : n.Timeout = some true) :
    classifyHTTPError (some e) = ("timeout", "network timeout (dial/tls/headers/total)") := by
  have : timedOut e = true := by
    rw [timedOut_eq, hn]
    simp [ht]
  simp [classifyHTTPError, this]

/-- C7 amended, at a URL error over a net-op error over a DNS timeout: the
first network error of the chain is the URL error itself. -/
theorem classifyHTTPError_timeout_witness :
    (chain lookupTimeoutError).find? GoError.isNetError = some lookupTimeoutError ∧
    lookupTimeoutError.Timeout = some true ∧
    classifyHTTPError (some lookupTimeoutError)
      = ("timeout", "network timeout (dial/tls/headers/total)") :=
  ⟨rfl, rfl, classifyHTTPError_timeout lookupTimeoutError lookupTimeoutError rfl rfl⟩

/-- C3 as stated fails: a URL error whose chain holds a DNS error that
reports a timeout is classified `"timeout"`, not `"dns_error"`. -/
theorem classifyHTTPError_url_dns_timeout :
    GoError.isURLError lookupTimeoutError = true ∧
    (chain lookupTimeoutError).any GoError.isDNSError = true ∧
    classifyHTTPError (some lookupTimeoutError)
      = ("timeout", "network timeout (dial/tls/headers/total)") ∧
    (classifyHTTPError (some lookupTimeoutError)).1 ≠ "dns_error" := by
  decide

/-- C3, amended: a URL error that does not itself report a timeout and whose
wrap chain holds a DNS error is classified `"dns_error"`, with the string of
the first DNS error of the chain as detail, and not `"url_error"`. -/
theorem classifyHTTPError_url_wrapping_dns (text op url : String) (inner dnsErr : GoError)
    (hdns : (chain inner).find? GoError.isDNSError = some dnsErr)
    (hto : (GoError.URLError text op url inner).Timeout ≠ some true) :
    classifyHTTPError (some (.URLError text op url inner)) = ("dns_error", dnsErr.Error) ∧
    (classifyHTTPError (some (.URLError text op url inner))).1 ≠ "url_error" := by
  have hT : timedOut (.URLError text op url inner) = false := by
    rw [timedOut_eq]
    simp only [chain, List.find?_cons, GoError.isNetError]
    simpa using hto
  have hc : classifyHTTPError (some (.URLError text op url inner)) = ("dns_error", dnsErr.Error) := by
    rw [classifyHTTPError_of_not_timedOut _ hT]
    simp [chain, List.find?_cons, GoError.isDNSError, hdns]
  refine ⟨hc, ?_⟩
  rw [hc]
  show "dns_error" ≠ "url_error"
  decide

/-- C3 amended, at a URL error over a net-op error over a failed lookup. -/
theorem classifyHTTPError_url_wrapping_dns_witness :
    classifyHTTPError (some noSuchHostError)
      = ("dns_error", "lookup missing.example: no such host") ∧
    (classifyHTTPError (some noSuchHostError)).1 ≠ "url_error" :=
  classifyHTTPError_url_wrapping_dns
    "Get \"https://missing.example\": dial tcp: lookup missing.example: no such host"
    "Get" "https://missing.example"
    (.OpError "dial tcp: lookup missing.example: no such host"
      (.DNSError "lookup missing.example: no such host" false []))
    (.DNSError "lookup missing.example: no such host" false [])
    rfl (by decide)

/-! ## The backtracking matcher -/

/-- A greedy `+` keeps its longest run when the rest of the pattern accepts it. -/
theorem tryLens_top {α : Type} (f : Nat → Option α) (n : Nat) (a : α)
    (h : f (n + 1) = some a) : tryLens f (n + 1) = some a := by
  simp [tryLens, h]

/-- A greedy `+` gives one character back when the rest of the pattern
rejects its longest run. -/
theorem tryLens_skip {α : Type} (f : Nat → Option α) (n : Nat)
    (h : f (n + 1) = none) : tryLens f (n + 1) = tryLens f n := by
  simp [tryLens, h]

/-- A successful greedy `+` consumed between one and `n` characters. -/
theorem tryLens_some {α : Type} (f : Nat → Option α) :
    ∀ (n : Nat) (a : α), tryLens f n = some a → ∃ k, 1 ≤ k ∧ k ≤ n ∧ f k = some a
  | 0, a, h => by simp [tryLens] at h
  | n + 1, a, h => by
    cases hf : f (n + 1) with
    | some b =>
      rw [tryLens_top f n b hf] at h
      exact ⟨n + 1, by omega, le_refl _, by rw [hf, h]⟩
    | none =>
      rw [tryLens_skip f n hf] at h
      obtain ⟨k, h1, h2, h3⟩ := tryLens_some f n a h
      exact ⟨k, h1, by omega, h3⟩

/-- A greedy `+` succeeds as soon as one admissible length does. -/
theorem tryLens_isSome {α : Type} (f : Nat → Option α) :
    ∀ (n k : Nat), 1 ≤ k → k ≤ n → (f k).isSome = true → (tryLens f n).isSome = true
  | 0, k, h1, h2, _ => by omega
  | n + 1, k, h1, h2, h3 => by
    cases hf : f (n + 1) with
    | some b => rw [tryLens_top f n b hf]; rfl
    | none =>
      rw [tryLens_skip f n hf]
      have hk : k ≤ n := by
        rcases Nat.lt_or_ge n k with hlt | hge
        · have : k = n + 1 := by omega
          rw [this, hf] at h3
          simp at h3
        · exact hge
      exact tryLens_isSome f n k h1 hk h3

/-- The unfolding of the matcher at a greedy `+`. -/
theorem matchHere_plus (g : Nat) (cls : Char → Bool) (es : List Elem) (s : List Char) :
    matchHere (⟨g, cls, .plus⟩ :: es) s =
      tryLens (fun k => (matchHere es (s.drop k)).map (fun m => (g, s.take k) :: m))
        (s.takeWhile cls).length := by
  simp [matchHere]

/-- A final greedy `+` consumes the longest run of its class, which must not
be empty. -/
theorem matchHere_plus_last (g : Nat) (cls : Char → Bool) (s : List Char) :
    matchHere [⟨g, cls, .plus⟩] s =
      if s.takeWhile cls = [] then none else some [(g, s.takeWhile cls)] := by
  rw [matchHere_plus]
  cases hn : (s.takeWhile cls).length with
  | zero =>
    have : s.takeWhile cls = [] := List.length_eq_zero.mp hn
    simp [this, tryLens]
  | succ n =>
    have hne : s.takeWhile cls ≠ [] := by
      intro h0
      rw [h0] at hn
      simp at hn
    rw [if_neg hne]
    apply tryLens_top
    have ht : s.take (n + 1) = s.takeWhile cls := by
      have h := List.takeWhile_append_dropWhile cls s
      conv_lhs => rw [← h]
      rw [List.take_append_of_le_length (by omega), List.take_of_length_le (by omega)]
    simp [matchHere, ht]

/-- A literal or class element that matched consumed one character of its
class. -/
theorem matchHere_one_some (g : Nat) (cls : Char → Bool) (es : List Elem) (s : List Char)
    (m : List (Nat × List Char)) (h : matchHere (⟨g, cls, .one⟩ :: es) s = some m) :
    ∃ c s' m', s = c :: s' ∧ cls c = true ∧ matchHere es s' = some m' ∧ m = (g, [c]) :: m' := by
  cases s with
  | nil => simp [matchHere] at h
  | cons c s' =>
    cases hc : cls c with
    | false => simp [matchHere, hc] at h
    | true =>
      simp only [matchHere, hc, if_true, Option.map_eq_some'] at h
      obtain ⟨m', h1, h2⟩ := h
      exact ⟨c, s', m', rfl, hc, h1, h2.symm⟩

/-- An optional element that matched consumed one character of its class or
none. -/
theorem matchHere_opt_some (g : Nat) (cls : Char → Bool) (es : List Elem) (s : List Char)
    (m : List (Nat × List Char)) (h : matchHere (⟨g, cls, .opt⟩ :: es) s = some m) :
    (∃ c s' m', s = c :: s' ∧ cls c = true ∧ matchHere es s' = some m' ∧ m = (g, [c]) :: m') ∨
    (∃ m', matchHere es s = some m' ∧ m = (g, []) :: m') := by
  cases s with
  | nil =>
    simp only [matchHere, Option.map_eq_some'] at h
    obtain ⟨m', h1, h2⟩ := h
    exact Or.inr ⟨m', h1, h2.symm⟩
  | cons c s' =>
    cases hc : cls c with
    | false =>
      simp only [matchHere, hc, Bool.false_eq_true, if_false, Option.map_eq_some'] at h
      obtain ⟨m', h1, h2⟩ := h
      exact Or.inr ⟨m', h1, h2.symm⟩
    | true =>
      cases hm : matchHere es s' with
      | some m' =>
        simp only [matchHere, hc, if_true, hm, Option.map_some', Option.some.injEq] at h
        exact Or.inl ⟨c, s', m', rfl, hc, hm, h.symm⟩
      | none =>
        simp only [matchHere, hc, if_true, hm, Option.map_none', Option.map_eq_some'] at h
        obtain ⟨m', h1, h2⟩ := h
        exact Or.inr ⟨m', h1, h2.symm⟩

/-- The two-element tail of the pattern `r`: the host group and the rest
group. -/
theorem r_eq :
    r = [lit 1 'h', lit 1 't', lit 1 't', lit 1 'p', ⟨1, fun x => x == 's', .opt⟩,
      lit 1 ':', lit 1 '/', lit 1 '/'] ++ [⟨2, isAlphaDot, .plus⟩, ⟨3, isGraph, .plus⟩] :=
  rfl

/-- The scheme group at a text that starts with `http://`, before any
pattern tail. -/
theorem matchHere_scheme_http (es : List Elem) (t : List Char) :
    matchHere ([lit 1 'h', lit 1 't', lit 1 't', lit 1 'p', ⟨1, fun x => x == 's', .opt⟩,
        lit 1 ':', lit 1 '/', lit 1 '/'] ++ es) ("http://".data ++ t) =
      (matchHere es t).map
        (fun m => [(1, ['h']), (1, ['t']), (1, ['t']), (1, ['p']), (1, []), (1, [':']),
          (1, ['/']), (1, ['/'])] ++ m) := by
  cases h : matchHere es t <;> simp [lit, matchHere, h]

/-- The scheme group at a text that starts with `https://`, before any
pattern tail. -/
theorem matchHere_scheme_https (es : List Elem) (t : List Char) :
    matchHere ([lit 1 'h', lit 1 't', lit 1 't', lit 1 'p', ⟨1, fun x => x == 's', .opt⟩,
        lit 1 ':', lit 1 '/', lit 1 '/'] ++ es) ("https://".data ++ t) =
      (matchHere es t).map
        (fun m => [(1, ['h']), (1, ['t']), (1, ['t']), (1, ['p']), (1, ['s']), (1, [':']),
          (1, ['/']), (1, ['/'])] ++ m) := by
  cases h : matchHere es t <;> simp [lit, matchHere, h]

/-- The pattern at a text that starts with `http://`. -/
theorem matchHere_r_http (t : List Char) :
    matchHere r ("http://".data ++ t) =
      (matchHere [⟨2, isAlphaDot, .plus⟩, ⟨3, isGraph, .plus⟩] t).map
        (fun m => [(1, ['h']), (1, ['t']), (1, ['t']), (1, ['p']), (1, []), (1, [':']),
          (1, ['/']), (1, ['/'])] ++ m) := by
  rw [r_eq, matchHere_scheme_http]

/-- The pattern at a text that starts with `https://`. -/
theorem matchHere_r_https (t : List Char) :
    matchHere r ("https://".data ++ t) =
      (matchHere [⟨2, isAlphaDot, .plus⟩, ⟨3, isGraph, .plus⟩] t).map
        (fun m => [(1, ['h']), (1, ['t']), (1, ['t']), (1, ['p']), (1, ['s']), (1, [':']),
          (1, ['/']), (1, ['/'])] ++ m) := by
  rw [r_eq, matchHere_scheme_https]

/-- A text the pattern matches at its start begins with `http://` or
`https://`, and the host and rest groups match what follows. -/
theorem matchHere_r_some (s : List Char) (m : List (Nat × List Char))
    (h : matchHere r s = some m) :
    ∃ sch t m', s = sch ++ t ∧ (sch = "http://".data ∨ sch = "https://".data) ∧
      matchHere [⟨2, isAlphaDot, .plus⟩, ⟨3, isGraph, .plus⟩] t = some m' := by
  unfold r lit at h
  obtain ⟨c1, s1, m1, rfl, hc1, h1, -⟩ := matchHere_one_some _ _ _ _ _ h
  obtain ⟨c2, s2, m2, rfl, hc2, h2, -⟩ := matchHere_one_some _ _ _ _ _ h1
  obtain ⟨c3, s3, m3, rfl, hc3, h3, -⟩ := matchHere_one_some _ _ _ _ _ h2
  obtain ⟨c4, s4, m4, rfl, hc4, h4, -⟩ := matchHere_one_some _ _ _ _ _ h3
  simp only [beq_iff_eq] at hc1 hc2 hc3 hc4
  subst hc1 hc2 hc3 hc4
  rcases matchHere_opt_some _ _ _ _ _ h4 with ⟨c5, s5, m5, rfl, hc5, h5, -⟩ | ⟨m5, h5, -⟩
  · obtain ⟨c6, s6, m6, rfl, hc6, h6, -⟩ := matchHere_one_some _ _ _ _ _ h5
    obtain ⟨c7, s7, m7, rfl, hc7, h7, -⟩ := matchHere_one_some _ _ _ _ _ h6
    obtain ⟨c8, s8, m8, rfl, hc8, h8, -⟩ := matchHere_one_some _ _ _ _ _ h7
    simp only [beq_iff_eq] at hc5 hc6 hc7 hc8
    subst hc5 hc6 hc7 hc8
    exact ⟨"https://".data, s8, m8, rfl, Or.inr rfl, h8⟩
  · obtain ⟨c6, s6, m6, rfl, hc6, h6, -⟩ := matchHere_one_some _ _ _ _ _ h5
    obtain ⟨c7, s7, m7, rfl, hc7, h7, -⟩ := matchHere_one_some _ _ _ _ _ h6
    obtain ⟨c8, s8, m8, rfl, hc8, h8, -⟩ := matchHere_one_some _ _ _ _ _ h7
    simp only [beq_iff_eq] at hc6 hc7 hc8
    subst hc6 hc7 hc8
    exact ⟨"http://".data, s8, m8, rfl, Or.inl rfl, h8⟩

/-- A letter or a dot is a printable character. -/
theorem isGraph_of_isAlphaDot (c : Char) (h : isAlphaDot c = true) : isGraph c = true := by
  simp only [isAlphaDot, isAlpha, Bool.or_eq_true, Bool.and_eq_true, decide_eq_true_eq,
    beq_iff_eq] at h
  simp only [isGraph, Bool.and_eq_true, decide_eq_true_eq]
  have e1 : 'a'.toNat = 97 := rfl
  have e2 : 'z'.toNat = 122 := rfl
  have e3 : 'A'.toNat = 65 := rfl
  have e4 : 'Z'.toNat = 90 := rfl
  have e5 : '!'.toNat = 33 := rfl
  have e6 : '~'.toNat = 126 := rfl
  rcases h with (h | h) | h
  · omega
  · omega
  · subst h
    decide

/-- The class of the host group, in the words of the claims. -/
theorem isAlphaDot_iff (c : Char) : isAlphaDot c = true ↔ (isAlpha c = true ∨ c = '.') := by
  simp [isAlphaDot]

/-- The leftmost search succeeds when the pattern matches at some suffix. -/
theorem findSubmatch_isSome (re : List Elem) :
    ∀ (pre suf : List Char), (matchHere re suf).isSome = true →
      (findSubmatch re (pre ++ suf)).isSome = true
  | [], suf, h => by
    cases suf with
    | nil => simpa [findSubmatch] using h
    | cons c s =>
      cases hm : matchHere re (c :: s) with
      | some m => simp [findSubmatch, hm]
      | none => rw [hm] at h; simp at h
  | a :: pre, suf, h => by
    cases hm : matchHere re (a :: (pre ++ suf)) with
    | some m => simp [findSubmatch, hm]
    | none =>
      have ih := findSubmatch_isSome re pre suf h
      show (findSubmatch re (a :: (pre ++ suf))).isSome = true
      simp only [findSubmatch, hm]
      exact ih

/-- A successful leftmost search matched the pattern at some suffix. -/
theorem findSubmatch_some (re : List Elem) :
    ∀ (s : List Char) (m : List (Nat × List Char)), findSubmatch re s = some m →
      ∃ pre suf, s = pre ++ suf ∧ matchHere re suf = some m
  | [], m, h => ⟨[], [], rfl, by simpa [findSubmatch] using h⟩
  | c :: s, m, h => by
    cases hm : matchHere re (c :: s) with
    | some m' =>
      simp only [findSubmatch, hm, Option.some.injEq] at h
      exact ⟨[], c :: s, rfl, by rw [hm, h]⟩
    | none =>
      simp only [findSubmatch, hm] at h
      obtain ⟨pre, suf, h1, h2⟩ := findSubmatch_some re s m h
      exact ⟨c :: pre, suf, by rw [h1]; rfl, h2⟩

/-- The leftmost search returns the match at the start of the text when there
is one. -/
theorem findSubmatch_of_matchHere (re : List Elem) (s : List Char)
    (m : List (Nat × List Char)) (h : matchHere re s = some m) :
    findSubmatch re s = some m := by
  cases s with
  | nil => simpa [findSubmatch] using h
  | cons c s => simp [findSubmatch, h]

/-- The function `parseDomen` returns the second capture group of the leftmost
match and panics without a match. -/
theorem parseDomen_eq (url : String) :
    parseDomen url = (findSubmatch r url.data).map (groupText 2) := by
  unfold parseDomen FindStringSubmatch
  cases findSubmatch r url.data <;> simp

/-- The host and rest groups at a host followed by a rest that does not
start with a letter or a dot: the host group takes the whole host. -/
theorem matchHere_host_rest (host rest : List Char) (hh : host ≠ [])
    (hall : ∀ c ∈ host, isAlphaDot c = true) (hr : rest ≠ [])
    (hrall : ∀ c ∈ rest, isGraph c = true)
    (hfirst : ∀ c, rest.head? = some c → isAlphaDot c = false) :
    matchHere [⟨2, isAlphaDot, .plus⟩, ⟨3, isGraph, .plus⟩] (host ++ rest) =
      some [(2, host), (3, rest)] := by
  rw [matchHere_plus]
  have htw : (host ++ rest).takeWhile isAlphaDot = host := by
    rw [List.takeWhile_append_of_pos hall]
    cases rest with
    | nil => exact absurd rfl hr
    | cons c rest' =>
      have := hfirst c rfl
      simp [List.takeWhile_cons, this]
  rw [htw]
  obtain ⟨n, hn⟩ : ∃ n, host.length = n + 1 := by
    cases host with
    | nil => exact absurd rfl hh
    | cons a l => exact ⟨l.length, rfl⟩
  rw [hn]
  apply tryLens_top
  have hg : rest.takeWhile isGraph = rest := by
    rw [List.takeWhile_eq_self_iff]
    exact hrall
  rw [← hn]
  simp [matchHere_plus_last, hg, hr]

/-- The host and rest groups at a host with nothing after it: the host group
gives its last character to the rest group. -/
theorem matchHere_bare_host (body : List Char) (c : Char) (hb : body ≠ [])
    (hall : ∀ x ∈ body, isAlphaDot x = true) (hc : isAlphaDot c = true) :
    matchHere [⟨2, isAlphaDot, .plus⟩, ⟨3, isGraph, .plus⟩] (body ++ [c]) =
      some [(2, body), (3, [c])] := by
  rw [matchHere_plus]
  have htw : (body ++ [c]).takeWhile isAlphaDot = body ++ [c] := by
    rw [List.takeWhile_eq_self_iff]
    intro x hx
    rcases List.mem_append.mp hx with h | h
    · exact hall x h
    · rw [List.mem_singleton.mp h]; exact hc
  rw [htw, List.length_append, List.length_singleton, tryLens_skip]
  · obtain ⟨n, hn⟩ : ∃ n, body.length = n + 1 := by
      cases body with
      | nil => exact absurd rfl hb
      | cons a l => exact ⟨l.length, rfl⟩
    rw [hn]
    apply tryLens_top
    rw [← hn]
    simp [matchHere_plus_last, isGraph_of_isAlphaDot c hc]
  · simp [matchHere_plus_last]

/-- The host `parseDomen` returns for a URL that starts with its scheme, from
the match of the host and rest groups after the scheme. -/
theorem parseDomen_of_tail (sch : String) (t h g : List Char)
    (hs : sch = "http://" ∨ sch = "https://")
    (hm : matchHere [⟨2, isAlphaDot, .plus⟩, ⟨3, isGraph, .plus⟩] t = some [(2, h), (3, g)]) :
    parseDomen (sch ++ String.mk t) = some (String.mk h) := by
  rw [parseDomen_eq, String.data_append]
  rcases hs with rfl | rfl
  · rw [findSubmatch_of_matchHere r _ _ (by rw [matchHere_r_http, hm]; rfl)]
    simp [groupText]
  · rw [findSubmatch_of_matchHere r _ _ (by rw [matchHere_r_https, hm]; rfl)]
    simp [groupText]

/-- C6: for a URL made of the scheme `http://` or `https://`, a non-empty host
of ASCII letters and dots, and a non-empty rest of printable non-space ASCII
characters that starts with neither a letter nor a dot, `parseDomen` returns
exactly the host. -/
theorem parseDomen_host (sch host rest : String)
    (hs : sch = "http://" ∨ sch = "https://")
    (hh : host ≠ "") (hall : ∀ c ∈ host.data, isAlpha c = true ∨ c = '.')
    (hr : rest ≠ "") (hrall : ∀ c ∈ rest.data, isGraph c = true)
    (hfirst : ∀ c, rest.data.head? = some c → ¬ (isAlpha c = true ∨ c = '.')) :
    parseDomen (sch ++ host ++ rest) = some host := by
  have hm := matchHere_host_rest host.data rest.data
    (by intro h0; exact hh (String.ext h0))
    (fun c hc => (isAlphaDot_iff c).mpr (hall c hc))
    (by intro h0; exact hr (String.ext h0)) hrall
    (fun c hc => by
      have := hfirst c hc
      rw [← isAlphaDot_iff] at this
      simpa using this)
  have := parseDomen_of_tail sch (host.data ++ rest.data) host.data rest.data hs hm
  rw [String.append_assoc]
  have e : host ++ rest = String.mk (host.data ++ rest.data) := String.ext (by simp)
  rw [e, this]

/-- C6, at `https://example.com/status`. -/
theorem parseDomen_host_witness :
    parseDomen ("https://" ++ "example.com" ++ "/status") = some "example.com" :=
  parseDomen_host "https://" "example.com" "/status" (Or.inr rfl) (by decide)
    (by decide) (by decide) (by decide) (by decide)

/-- The host and rest groups match at a letter or dot followed by a printable
character. -/
theorem matchHere_tail_isSome (c1 c2 : Char) (post : List Char)
    (h1 : isAlphaDot c1 = true) (h2 : isGraph c2 = true) :
    (matchHere [⟨2, isAlphaDot, .plus⟩, ⟨3, isGraph, .plus⟩] (c1 :: c2 :: post)).isSome
      = true := by
  rw [matchHere_plus]
  apply tryLens_isSome _ _ 1 (le_refl 1)
  · simp [List.takeWhile_cons, h1]
  · simp [matchHere_plus_last, List.takeWhile_cons, h2]

/-- Where the host and rest groups match, the text starts with a letter or
dot followed by a printable character. -/
theorem matchHere_tail_some (t : List Char) (m : List (Nat × List Char))
    (h : matchHere [⟨2, isAlphaDot, .plus⟩, ⟨3, isGraph, .plus⟩] t = some m) :
    ∃ c1 c2 post, t = c1 :: c2 :: post ∧ isAlphaDot c1 = true ∧ isGraph c2 = true := by
  rw [matchHere_plus] at h
  obtain ⟨k, hk1, hk2, hk3⟩ := tryLens_some _ _ _ h
  simp only [Option.map_eq_some'] at hk3
  obtain ⟨m', hm', -⟩ := hk3
  rw [matchHere_plus_last] at hm'
  have hg : (t.drop k).takeWhile isGraph ≠ [] := by
    intro h0
    simp [h0] at hm'
  cases t with
  | nil => simp at hk2; omega
  | cons c1 t1 =>
    cases hc1 : isAlphaDot c1 with
    | false => simp [List.takeWhile_cons, hc1] at hk2; omega
    | true =>
      cases t1 with
      | nil =>
        obtain ⟨j, rfl⟩ : ∃ j, k = j + 1 := ⟨k - 1, by omega⟩
        simp at hg
      | cons c2 post =>
        refine ⟨c1, c2, post, rfl, hc1, ?_⟩
        cases hc2 : isAlphaDot c2 with
        | true => exact isGraph_of_isAlphaDot c2 hc2
        | false =>
          simp only [List.takeWhile_cons, hc1, hc2, if_true, Bool.false_eq_true, if_false,
            List.length_singleton] at hk2
          have hk : k = 1 := by omega
          subst hk
          cases hg2 : isGraph c2 with
          | true => rfl
          | false => simp [List.takeWhile_cons, hg2] at hg

/-- C10: `parseDomen` returns a host label exactly when the URL contains
`http://` or `https://` immediately followed by an ASCII letter or dot and
then by a printable non-space ASCII character; on every other input it hits
the out-of-range index, as on the empty string, `http://a`,
`http://127.0.0.1/` and `ftp://example.com/`. -/
theorem parseDomen_isSome_iff :
    (∀ url : String, (parseDomen url).isSome = true ↔
      ∃ (pre post : List Char) (sch : String) (c1 c2 : Char),
        url.data = pre ++ sch.data ++ c1 :: c2 :: post ∧
        (sch = "http://" ∨ sch = "https://") ∧
        (isAlpha c1 = true ∨ c1 = '.') ∧ isGraph c2 = true) ∧
    parseDomen "" = none ∧ parseDomen "http://a" = none ∧
    parseDomen "http://127.0.0.1/" = none ∧ parseDomen "ftp://example.com/" = none := by
  refine ⟨fun url => ⟨fun h => ?_, fun h => ?_⟩, by decide, by decide, by decide, by decide⟩
  · rw [parseDomen_eq, Option.isSome_map'] at h
    obtain ⟨m, hm⟩ := Option.isSome_iff_exists.mp h
    obtain ⟨pre, suf, hsplit, hsuf⟩ := findSubmatch_some r _ _ hm
    obtain ⟨sch, t, m', rfl, hsch, ht⟩ := matchHere_r_some suf m hsuf
    obtain ⟨c1, c2, post, rfl, h1, h2⟩ := matchHere_tail_some t m' ht
    refine ⟨pre, post, String.mk sch, c1, c2, ?_, ?_, (isAlphaDot_iff c1).mp h1, h2⟩
    · rw [hsplit]; simp
    · rcases hsch with rfl | rfl
      · exact Or.inl rfl
      · exact Or.inr rfl
  · obtain ⟨pre, post, sch, c1, c2, hurl, hsch, h1, h2⟩ := h
    rw [parseDomen_eq, Option.isSome_map', hurl, List.append_assoc]
    apply findSubmatch_isSome
    have ht := matchHere_tail_isSome c1 c2 post ((isAlphaDot_iff c1).mpr h1) h2
    rcases hsch with rfl | rfl
    · rw [matchHere_r_http, Option.isSome_map']
      exact ht
    · rw [matchHere_r_https, Option.isSome_map']
      exact ht

/-- The worker for a response with a status code: the row holds the host
`parseDomen` returns and the classification of the code. -/
theorem worker_of_response (T : Transport) (userAgent url domen : String) (c : Int)
    (hreq : T.NewRequest url = true)
    (hdo : T.Do url (if userAgent != "" then userAgent else defaultAgent) = .ok ⟨c⟩)
    (hp : parseDomen url = some domen) :
    worker T userAgent url =
      some ⟨domen, (classifyHTTPStatusCode ⟨c⟩).1, (classifyHTTPStatusCode ⟨c⟩).2⟩ := by
  unfold worker
  by_cases hua : userAgent = ""
  · subst hua
    simp only [bne_self_eq_false, Bool.false_eq_true, if_false] at hdo ⊢
    simp [fetch, hreq, hdo, hp, classifyHTTP]
  · have hne : (userAgent != "") = true := by simpa using hua
    simp only [hne, if_true] at hdo ⊢
    simp [fetch, hreq, hne, hdo, hp, classifyHTTP]

/-- C5, what the code does: for a URL made of the scheme and a host of
letters and dots with nothing after it, the row of the worker holds the host
without its last character, next to the classification of the status code. -/
theorem worker_bare_host (T : Transport) (userAgent sch body : String) (last : Char) (c : Int)
    (hs : sch = "http://" ∨ sch = "https://")
    (hb : body ≠ "") (hall : ∀ x ∈ body.data, isAlpha x = true ∨ x = '.')
    (hlast : isAlpha last = true ∨ last = '.')
    (hreq : T.NewRequest (sch ++ (body ++ String.singleton last)) = true)
    (hdo : T.Do (sch ++ (body ++ String.singleton last))
      (if userAgent != "" then userAgent else defaultAgent) = .ok ⟨c⟩) :
    worker T userAgent (sch ++ (body ++ String.singleton last)) =
      some ⟨body, (classifyHTTPStatusCode ⟨c⟩).1, (classifyHTTPStatusCode ⟨c⟩).2⟩ := by
  apply worker_of_response T userAgent _ body c hreq hdo
  have hm := matchHere_bare_host body.data last (by intro h0; exact hb (String.ext h0))
    (fun x hx => (isAlphaDot_iff x).mpr (hall x hx)) ((isAlphaDot_iff last).mpr hlast)
  have e : body ++ String.singleton last = String.mk (body.data ++ [last]) :=
    String.ext (by simp [String.singleton])
  rw [e]
  exact parseDomen_of_tail sch _ body.data [last] hs hm

/-- C5, at the two inputs of the specification: `http://example.com` with
status 200 gives the row `("example.co", "200", "OK")` and
`http://weird.example` with status 418 gives
`("weird.exampl", "unknown code", "unknown")`. -/
theorem worker_bare_host_witness :
    worker (statusTransport 200) "" "http://example.com" = some ⟨"example.co", "200", "OK"⟩ ∧
    worker (statusTransport 418) "" "http://weird.example"
      = some ⟨"weird.exampl", "unknown code", "unknown"⟩ :=
  ⟨worker_bare_host (statusTransport 200) "" "http://" "example.co" 'm' 200 (Or.inl rfl)
      (by decide) (by decide) (by decide) rfl rfl,
   worker_bare_host (statusTransport 418) "" "http://" "weird.exampl" 'e' 418 (Or.inl rfl)
      (by decide) (by decide) (by decide) rfl rfl⟩

/-! ## The input loader -/

/-- C9 as stated fails: with no file path and standard input attached to a
terminal, `urlFromStdin` logs `Stdin stream is empty.` and exits with code 0,
not 1. -/
theorem urlFromStdin_terminal_exit_code :
    ttyMode &&& ModeCharDevice ≠ 0 ∧
    loadURLs (fun _ => none) "" (.ok ttyMode) [] = .exit 0 ["Stdin stream is empty."] ∧
    (loadURLs (fun _ => none) "" (.ok ttyMode) []).code ≠ some 1 ∧
    (urlFromStdin (.ok ttyMode) []).code ≠ some 1 := by
  decide

/-- C9, amended: when no file path is given and the mode of standard input
has the character-device bit, the loader runs `urlFromStdin`, which logs
`Stdin stream is empty.` and exits with code 0, whatever standard input
holds. -/
theorem urlFromStdin_char_device (osOpen : String → Option (List String)) (mode : Nat)
    (lines : List String) (h : mode &&& ModeCharDevice ≠ 0) :
    loadURLs osOpen "" (.ok mode) lines = urlFromStdin (.ok mode) lines ∧
    urlFromStdin (.ok mode) lines = .exit 0 ["Stdin stream is empty."] ∧
    (urlFromStdin (.ok mode) lines).code = some 0 := by
  have hex : urlFromStdin (.ok mode) lines = .exit 0 ["Stdin stream is empty."] := by
    simp [urlFromStdin, h]
  refine ⟨by simp [loadURLs], hex, ?_⟩
  rw [hex]
  rfl

/-- C9 amended, at the mode of a terminal. -/
theorem urlFromStdin_char_device_witness :
    ttyMode &&& ModeCharDevice ≠ 0 ∧
    urlFromStdin (.ok ttyMode) ["http://example.com/"] = .exit 0 ["Stdin stream is empty."] :=
  ⟨by decide,
    (urlFromStdin_char_device (fun _ => none) ttyMode ["http://example.com/"] (by decide)).2.1⟩

/-! ## The coordinator -/

/-- The number of goroutines that have sent, around one goroutine. -/
theorem length_filter_isDone_around (pre post : List Goroutine) (w : Goroutine) :
    ((pre ++ w :: post).filter Goroutine.isDone).length =
      (pre.filter Goroutine.isDone).length + (post.filter Goroutine.isDone).length +
        (if w.isDone = true then 1 else 0) := by
  rw [List.filter_append, List.length_append, List.filter_cons]
  split_ifs
  · simp; omega
  · simp

/-- The invariant holds when every goroutine has just been started. -/
theorem inv_init (T : Transport) (userAgent : String) (urls : List String) :
    Inv T userAgent urls (State.init urls) := by
  have hnone : (urls.map Goroutine.running).filter Goroutine.isDone = [] := by
    rw [List.filter_eq_nil_iff]
    intro w hw
    obtain ⟨u, -, rfl⟩ := List.mem_map.mp hw
    simp [Goroutine.isDone]
  refine ⟨?_, ?_, ?_, ?_⟩
  · simp only [State.init, List.map_map]
    conv_rhs => rw [← List.map_id urls]
    apply List.map_congr_left
    intro u _
    rfl
  · intro w hw
    obtain ⟨u, -, rfl⟩ := List.mem_map.mp hw
    trivial
  · intro _
    simp [State.init, hnone]
  · intro t ht
    simp [State.init] at ht

/-- Every step of the coordinator keeps the invariant. -/
theorem inv_step (T : Transport) (userAgent : String) (urls : List String) (s u : State)
    (hI : Inv T userAgent urls s) (hs : Step T userAgent s u) : Inv T userAgent urls u := by
  obtain ⟨h1, h2, h3, h4⟩ := hI
  cases hs with
  | compute pre post url row hex hw hwork =>
    rw [hw] at h1 h2 h3 h4
    refine ⟨?_, ?_, ?_, ?_⟩
    · simpa [Goroutine.url] using h1
    · intro w hw'
      rcases List.mem_append.mp hw' with h | h
      · exact h2 w (List.mem_append_left _ h)
      · rcases List.mem_cons.mp h with rfl | h
        · exact hwork
        · exact h2 w (List.mem_append_right _ (List.mem_cons_of_mem _ h))
    · intro hr
      have := h3 hr
      simpa [length_filter_isDone_around, Goroutine.isDone] using this
    · intro t ht
      have := (h4 t ht).2.2 (.running url) (by simp)
      simp [Goroutine.finished] at this
  | panic pre post url hex hw hwork =>
    rw [hw] at h1 h2 h3 h4
    refine ⟨?_, ?_, ?_, ?_⟩
    · simpa [Goroutine.url] using h1
    · intro w hw'
      rcases List.mem_append.mp hw' with h | h
      · exact h2 w (List.mem_append_left _ h)
      · rcases List.mem_cons.mp h with rfl | h
        · exact hwork
        · exact h2 w (List.mem_append_right _ (List.mem_cons_of_mem _ h))
    · intro hr
      have := h3 hr
      simpa [length_filter_isDone_around, Goroutine.isDone] using this
    · intro t ht
      have := (h4 t ht).2.2 (.running url) (by simp)
      simp [Goroutine.finished] at this
  | send pre post url row hex hw hlen =>
    rw [hw] at h1 h2 h3 h4
    refine ⟨?_, ?_, ?_, ?_⟩
    · simpa [Goroutine.url] using h1
    · intro w hw'
      rcases List.mem_append.mp hw' with h | h
      · exact h2 w (List.mem_append_left _ h)
      · rcases List.mem_cons.mp h with rfl | h
        · have := h2 (.sending url row) (by simp)
          simp only [Goroutine.Consistent] at this ⊢
          rw [this]
          rfl
        · exact h2 w (List.mem_append_right _ (List.mem_cons_of_mem _ h))
    · intro hr
      obtain ⟨hd, hl, -⟩ := h3 hr
      refine ⟨hd, ?_, ?_⟩
      · simp only [length_filter_isDone_around, Goroutine.isDone] at hl ⊢
        simp only [List.length_append, List.length_singleton]
        simp at hl ⊢
        omega
      · simp only [List.length_append, List.length_singleton]
        omega
    · intro t ht
      have := (h4 t ht).2.2 (.sending url row) (by simp)
      simp [Goroutine.finished] at this
  | crash url hex hmem =>
    exact ⟨h1, h2, h3, h4⟩
  | render hex hr hfin =>
    obtain ⟨hd, hl, hcap⟩ := h3 hr
    refine ⟨h1, h2, ?_, ?_⟩
    · intro h0
      simp at h0
    · intro t ht
      simp only [Option.some.injEq] at ht
      subst ht
      refine ⟨?_, ?_, hfin⟩
      · rw [hd, List.length_append, List.length_map, hl]
        rfl
      · rw [← hl]
        exact hcap

/-- Every state the coordinator reaches satisfies the invariant. -/
theorem inv_reachable (T : Transport) (userAgent : String) (urls : List String) (s : State)
    (hr : Reachable T userAgent (State.init urls) s) : Inv T userAgent urls s := by
  induction hr with
  | refl => exact inv_init T userAgent urls
  | step t u _ hstep ih => exact inv_step T userAgent urls t u ih hstep

/-- A URL that `parseDomen` rejects makes the worker panic. -/
theorem worker_none_of_parseDomen (T : Transport) (userAgent url : String)
    (h : parseDomen url = none) : worker T userAgent url = none := by
  unfold worker
  split
  · rfl
  · simp [h]

/-- C4, what the code does: when the input has more URLs than the channel
`results` has slots, or holds a URL the pattern of `parseDomen` does not
match (a blank line, a malformed URL), no reachable state of `RunApp` shows a
table of `|S| + 1` rows: a rendered table is shorter, and with more than 64
URLs whose workers all return, the table is never rendered. -/
theorem RunApp_table_incomplete (T : Transport) (userAgent : String) (urls : List String)
    (s : State)
    (hbad : resultsCap < urls.length ∨ ∃ u ∈ urls, parseDomen u = none)
    (hr : Reachable T userAgent (State.init urls) s) :
    (∀ t, s.rendered = some t → t.length < urls.length + 1) ∧
    (resultsCap < urls.length → (∀ u ∈ urls, (worker T userAgent u).isSome = true) →
      s.rendered = none) := by
  obtain ⟨h1, h2, h3, h4⟩ := inv_reachable T userAgent urls s hr
  have hlen : s.workers.length = urls.length := by
    rw [← h1, List.length_map]
  constructor
  · intro t ht
    obtain ⟨ht1, ht2, -⟩ := h4 t ht
    have hle := List.length_filter_le Goroutine.isDone s.workers
    rcases hbad with hb | ⟨u, hu, hp⟩
    · omega
    · have hlt : (s.workers.filter Goroutine.isDone).length < s.workers.length := by
        rw [List.length_filter_lt_length_iff_exists]
        rw [← h1] at hu
        obtain ⟨w, hw, rfl⟩ := List.mem_map.mp hu
        refine ⟨w, hw, ?_⟩
        have hc := h2 w hw
        have hn := worker_none_of_parseDomen T userAgent w.url hp
        cases w with
        | running url => simp [Goroutine.isDone]
        | sending url row => simp [Goroutine.isDone]
        | done url =>
          simp only [Goroutine.Consistent, Goroutine.url] at hc hn
          rw [hn] at hc
          simp at hc
        | panicked url => simp [Goroutine.isDone]
      omega
  · intro hcap hall
    cases hrend : s.rendered with
    | none => rfl
    | some t =>
      obtain ⟨-, ht2, ht3⟩ := h4 t hrend
      have hfull : (s.workers.filter Goroutine.isDone).length = s.workers.length := by
        rw [List.filter_length_eq_length]
        intro w hw
        have hc := h2 w hw
        have hf := ht3 w hw
        have hu : w.url ∈ urls := by
          rw [← h1]
          exact List.mem_map.mpr ⟨w, hw, rfl⟩
        have hsome := hall w.url hu
        cases w with
        | running url => simp [Goroutine.finished] at hf
        | sending url row => simp [Goroutine.finished] at hf
        | done url => rfl
        | panicked url =>
          simp only [Goroutine.Consistent, Goroutine.url] at hc hsome
          rw [hc] at hsome
          simp at hsome
      omega

/-- C4, at the input of one blank line: the goroutine panics in `parseDomen`,
and a table rendered before the process ends holds the header alone, one row
where the claim wants two. -/
theorem RunApp_table_incomplete_witness :
    Reachable (statusTransport 200) "" (State.init [""]) blankLineRun ∧
    blankLineRun.rendered = some data ∧ data.length < [""].length + 1 := by
  have s1 : Step (statusTransport 200) "" (State.init [""])
      ⟨[.panicked ""], [], data, none, false⟩ :=
    Step.panic (State.init [""]) [] [] "" rfl rfl (by decide)
  have s2 : Step (statusTransport 200) "" ⟨[.panicked ""], [], data, none, false⟩
      blankLineRun :=
    Step.render ⟨[.panicked ""], [], data, none, false⟩ rfl rfl (by decide)
  have hr : Reachable (statusTransport 200) "" (State.init [""]) blankLineRun :=
    Reachable.step _ _ (Reachable.step _ _ Reachable.refl s1) s2
  exact ⟨hr, rfl,
    (RunApp_table_incomplete (statusTransport 200) "" [""] blankLineRun
      (Or.inr ⟨"", by simp, by decide⟩) hr).1 data rfl⟩

end PingSet
